import Mathlib

/-!
Verification of the `tilepygame` framework: the Camera component
(`src/tilepygame/camera.py`), the coordinate transforms of `Internals`
(`src/tilepygame/engine.py`) and the animation update of `AnimatedSprite`
(`src/tilepygame/sprites.py`), embedded shallowly over the real numbers
(Python floats are idealised as reals).
-/

namespace Tilepygame

noncomputable section

/-- Camera state, mirroring `Camera.__init__` in `camera.py`.  The leading
underscores of the private Python attributes are dropped. -/
structure Camera where
  x : ℝ
  y : ℝ
  width : ℝ
  height : ℝ
  zoom : ℝ
  min_zoom : ℝ
  max_zoom : ℝ
  zoom_speed : ℝ
  scroll_zoom_enabled : Bool
  bounds : Option (ℝ × ℝ × ℝ × ℝ)
  smoothing : ℝ
  target_x : ℝ
  target_y : ℝ
  follow_x : ℝ
  follow_y : ℝ

/-- The camera as constructed by `Camera.__init__(width, height)`. -/
def Camera.init (width height : ℝ) : Camera :=
  { x := 0, y := 0, width := width, height := height, zoom := 1,
    min_zoom := 1, max_zoom := 4, zoom_speed := 0.25,
    scroll_zoom_enabled := true, bounds := none, smoothing := 0.1,
    target_x := 0, target_y := 0, follow_x := 0, follow_y := 0 }

/-- `Camera.view_width`: effective viewport width accounting for zoom. -/
def Camera.view_width (c : Camera) : ℝ := c.width / c.zoom

/-- `Camera.view_height`: effective viewport height accounting for zoom. -/
def Camera.view_height (c : Camera) : ℝ := c.height / c.zoom

/-- `Camera._update_target`: recalculate the camera target from the followed
position and the current zoom. -/
def Camera.update_target (c : Camera) : Camera :=
  { c with target_x := c.follow_x - c.view_width / 2,
           target_y := c.follow_y - c.view_height / 2 }

/-- `Camera.follow`: record the follow target and recompute the camera target. -/
def Camera.follow (c : Camera) (tx ty : ℝ) : Camera :=
  Camera.update_target { c with follow_x := tx, follow_y := ty }

/-- `Camera.set_bounds`: install the clamp rectangle (does not move the position). -/
def Camera.set_bounds (c : Camera) (min_x min_y max_x max_y : ℝ) : Camera :=
  { c with bounds := some (min_x, min_y, max_x, max_y) }

/-- `Camera.clear_bounds`: remove camera bounds. -/
def Camera.clear_bounds (c : Camera) : Camera :=
  { c with bounds := none }

/-- One axis of `Camera._clamp_to_bounds` (lines 112-120 of `camera.py`):
center the range when the viewport exceeds it, clamp otherwise. -/
def Camera.clamp_axis (pos minv maxv view : ℝ) : ℝ :=
  if maxv - view < minv then (minv + maxv - view) / 2
  else max minv (min pos (maxv - view))

/-- `Camera._clamp_to_bounds`: clamp the camera position to the bounds if set. -/
def Camera.clamp_to_bounds (c : Camera) : Camera :=
  match c.bounds with
  | none => c
  | some (min_x, min_y, max_x, max_y) =>
      { c with x := Camera.clamp_axis c.x min_x max_x c.view_width,
               y := Camera.clamp_axis c.y min_y max_y c.view_height }

/-- `Camera.snap_to_target`: move instantly to the target, then clamp. -/
def Camera.snap_to_target (c : Camera) : Camera :=
  Camera.clamp_to_bounds { c with x := c.target_x, y := c.target_y }

/-- `Camera.update(dt)`: exponential smoothing toward the target with the
frame-rate independent factor `1 - (1 - smoothing) ^ (dt * 60)`, then clamping.
The Python float power becomes the real power `Real.rpow`. -/
def Camera.update (c : Camera) (dt : ℝ) : Camera :=
  let smoothing_factor : ℝ := 1 - (1 - c.smoothing) ^ (dt * 60)
  Camera.clamp_to_bounds
    { c with x := c.x + (c.target_x - c.x) * smoothing_factor,
             y := c.y + (c.target_y - c.y) * smoothing_factor }

/-- Modelled from the spec: `set_zoom(z)` is described in the spec as derived
from scroll handling, but no scroll handler or zoom setter exists in the
source; per the spec it clamps `z` to `[min_zoom, max_zoom]`, updates `zoom`,
and recomputes the target from the existing follow target. -/
def Camera.set_zoom (c : Camera) (z : ℝ) : Camera :=
  Camera.update_target { c with zoom := max c.min_zoom (min z c.max_zoom) }

/-- The world x-coordinate shown at the viewport center once the camera sits at
its target position: `screen_to_world` of the screen center `width / 2` with
camera x equal to `target_x`. -/
def Camera.center_world_x (c : Camera) : ℝ := (c.width / 2) / c.zoom + c.target_x

/-- The world y-coordinate shown at the viewport center once the camera sits at
its target position. -/
def Camera.center_world_y (c : Camera) : ℝ := (c.height / 2) / c.zoom + c.target_y

/-- The camera of spec test 3: viewport 200x150, bounds (0,0,1000,1000),
follow target (2000,2000). -/
def camera_ex_narrow : Camera :=
  Camera.follow (Camera.set_bounds (Camera.init 200 150) 0 0 1000 1000) 2000 2000

/-- The camera of spec test 4: viewport 800x600, bounds (0,0,100,100). -/
def camera_ex_oversized : Camera :=
  Camera.set_bounds (Camera.init 800 600) 0 0 100 100

/-- A camera outside its freshly installed bounds: position (0,0), bounds
(10,10,200,200), viewport 100x100. -/
def camera_ex_unclamped : Camera :=
  Camera.set_bounds (Camera.init 100 100) 10 10 200 200

/-- A fresh 800x600 camera following the world point (100, 100). -/
def camera_ex_follow : Camera :=
  Camera.follow (Camera.init 800 600) 100 100

/-- The tile-map data consumed by the coordinate transforms: the pytmx-derived
dimensions of `TileMap` in `tilemap.py` (`width`/`height` in tiles,
`tile_width`/`tile_height` in pixels).  Surfaces, layers and animation state
are irrelevant to the transform claims and omitted. -/
structure TileMap where
  width : ℤ
  height : ℤ
  tile_width : ℤ
  tile_height : ℤ

/-- `TileMap.pixel_width`: total map width in pixels. -/
def TileMap.pixel_width (tm : TileMap) : ℤ := tm.width * tm.tile_width

/-- `TileMap.pixel_height`: total map height in pixels. -/
def TileMap.pixel_height (tm : TileMap) : ℤ := tm.height * tm.tile_height

/-- The `Internals` game state of `engine.py`, restricted to the fields the
coordinate transforms read (the pygame surface and event list are opaque
handles and omitted). -/
structure Internals where
  width : ℤ
  height : ℤ
  camera : Camera
  tilemap : Option TileMap
  dt : ℝ

/-- `Internals.screen_to_world`: screen to world via camera offset and zoom. -/
def Internals.screen_to_world (i : Internals) (screen_x screen_y : ℝ) : ℝ × ℝ :=
  (screen_x / i.camera.zoom + i.camera.x, screen_y / i.camera.zoom + i.camera.y)

/-- `Internals.world_to_screen`: world to screen via camera offset and zoom. -/
def Internals.world_to_screen (i : Internals) (world_x world_y : ℝ) : ℝ × ℝ :=
  ((world_x - i.camera.x) * i.camera.zoom, (world_y - i.camera.y) * i.camera.zoom)

/-- `Internals.world_to_tile`: floor-divide world coordinates by the tile size;
`None` without a tilemap.  Python `int(a // b)` on floats is the floor of the
real quotient. -/
def Internals.world_to_tile (i : Internals) (world_x world_y : ℝ) : Option (ℤ × ℤ) :=
  match i.tilemap with
  | none => none
  | some tm => some (⌊world_x / (tm.tile_width : ℝ)⌋, ⌊world_y / (tm.tile_height : ℝ)⌋)

/-- `Internals.tile_to_world`: top-left world corner of a tile; `None` without
a tilemap. -/
def Internals.tile_to_world (i : Internals) (tile_x tile_y : ℤ) : Option (ℝ × ℝ) :=
  match i.tilemap with
  | none => none
  | some tm => some (((tile_x * tm.tile_width : ℤ) : ℝ), ((tile_y * tm.tile_height : ℤ) : ℝ))

/-- `Internals.screen_to_tile`: compose `screen_to_world` with `world_to_tile`. -/
def Internals.screen_to_tile (i : Internals) (screen_x screen_y : ℝ) : Option (ℤ × ℤ) :=
  let world := i.screen_to_world screen_x screen_y
  i.world_to_tile world.1 world.2

/-- `Internals.tile_to_screen`: compose `tile_to_world` with `world_to_screen`. -/
def Internals.tile_to_screen (i : Internals) (tile_x tile_y : ℤ) : Option (ℝ × ℝ) :=
  match i.tile_to_world tile_x tile_y with
  | none => none
  | some world => some (i.world_to_screen world.1 world.2)

/-- An `Internals` with no tilemap configured (camera fresh from `__init__`). -/
def internals_ex : Internals :=
  { width := 800, height := 600, camera := Camera.init 800 600,
    tilemap := none, dt := 0 }

/-- An `Internals` with a 10x10 map of 32x32 tiles. -/
def internals_map_ex : Internals :=
  { width := 800, height := 600, camera := Camera.init 800 600,
    tilemap := some { width := 10, height := 10, tile_width := 32, tile_height := 32 },
    dt := 0 }

/-- Animation data of the private `_Animation` class in `sprites.py`; the
pygame frame surfaces are abstracted to numeric frame identifiers. -/
structure Animation where
  frames : List ℕ
  frame_duration : ℝ
  loop : Bool

/-- `AnimatedSprite` state: the animation registry (a Python dict, modelled as
an association list), the current animation name, frame index, elapsed time
and playing flag.  The pygame image surface is abstracted to the identifier of
the displayed frame; the rect geometry is omitted. -/
structure AnimatedSprite where
  animations : List (String × Animation)
  current_animation : Option String
  current_frame : ℕ
  elapsed : ℝ
  playing : Bool
  image : ℕ

/-- The `while self._elapsed >= anim.frame_duration` loop of
`AnimatedSprite.update` (lines 218-228 of `sprites.py`), returning the new
`(elapsed, current_frame, playing)` triple.  The guard is strengthened with
`0 < fd`: for non-positive `frame_duration` the source loop does not
terminate (the claims only concern positive durations), and the model then
exits at once. -/
def animFrameLoop (fd : ℝ) (n : ℕ) (lp : Bool) (elapsed : ℝ) (frame : ℕ) :
    ℝ × ℕ × Bool :=
  if h : 0 < fd ∧ fd ≤ elapsed then
    if frame + 1 ≥ n then
      if lp then animFrameLoop fd n lp (elapsed - fd) 0
      else (elapsed - fd, n - 1, false)
    else animFrameLoop fd n lp (elapsed - fd) (frame + 1)
  else (elapsed, frame, true)
termination_by (⌈elapsed / fd⌉).toNat
decreasing_by
  all_goals
    obtain ⟨hfd, hle⟩ := h
    have hq : (elapsed - fd) / fd = elapsed / fd - 1 := by
      rw [sub_div, div_self hfd.ne']
    have h1 : (1 : ℝ) ≤ elapsed / fd := (one_le_div hfd).mpr hle
    have h2 : (1 : ℤ) ≤ ⌈elapsed / fd⌉ := by
      have := Int.ceil_le_ceil h1
      simpa using this
    rw [hq, Int.ceil_sub_one]
    omega

/-- Fuel-indexed version of `animFrameLoop`: `none` when the fuel runs out
before the loop exits.  Used to state that the source loop terminates. -/
def animFrameLoopFuel (fd : ℝ) (n : ℕ) (lp : Bool) :
    ℕ → ℝ → ℕ → Option (ℝ × ℕ × Bool)
  | 0, elapsed, frame =>
      if 0 < fd ∧ fd ≤ elapsed then none else some (elapsed, frame, true)
  | fuel + 1, elapsed, frame =>
      if 0 < fd ∧ fd ≤ elapsed then
        if frame + 1 ≥ n then
          if lp then animFrameLoopFuel fd n lp fuel (elapsed - fd) 0
          else some (elapsed - fd, n - 1, false)
        else animFrameLoopFuel fd n lp fuel (elapsed - fd) (frame + 1)
      else some (elapsed, frame, true)

/-- `AnimatedSprite._update_image`: show the frame at `current_frame` (the
out-of-range access that would raise `IndexError` in Python is modelled by a
default value; the validity theorem shows the index is in range). -/
def AnimatedSprite.update_image (s : AnimatedSprite) : AnimatedSprite :=
  match s.current_animation with
  | none => s
  | some name =>
      match s.animations.lookup name with
      | none => s
      | some anim =>
          if anim.frames.isEmpty then s
          else { s with image := anim.frames.getD s.current_frame 0 }

/-- `AnimatedSprite.update(dt)`: advance the animation clock and step frames
through the catch-up loop, then refresh the image. -/
def AnimatedSprite.update (s : AnimatedSprite) (dt : ℝ) : AnimatedSprite :=
  if s.playing = false then s
  else
    match s.current_animation with
    | none => s
    | some name =>
        match s.animations.lookup name with
        | none => s
        | some anim =>
            if anim.frames.isEmpty then s
            else
              let r := animFrameLoop anim.frame_duration anim.frames.length
                anim.loop (s.elapsed + dt) s.current_frame
              AnimatedSprite.update_image
                { s with elapsed := r.1, current_frame := r.2.1, playing := r.2.2 }

/-- A two-frame looping animation of one second per frame. -/
def anim_run : Animation :=
  { frames := [7, 8], frame_duration := 1, loop := true }

/-- A two-frame looping sprite used to instantiate the animation claims. -/
def sprite_ex : AnimatedSprite :=
  { animations := [("run", anim_run)],
    current_animation := some "run",
    current_frame := 0, elapsed := 0, playing := true, image := 7 }

end

@[simp] lemma Camera.clamp_to_bounds_bounds (c : Camera) :
    (Camera.clamp_to_bounds c).bounds = c.bounds := by
  rcases hb : c.bounds with _ | ⟨mnx, mny, mxx, mxy⟩ <;>
    simp [Camera.clamp_to_bounds, hb]

@[simp] lemma Camera.clamp_to_bounds_target_x (c : Camera) :
    (Camera.clamp_to_bounds c).target_x = c.target_x := by
  rcases hb : c.bounds with _ | ⟨mnx, mny, mxx, mxy⟩ <;>
    simp [Camera.clamp_to_bounds, hb]

@[simp] lemma Camera.clamp_to_bounds_target_y (c : Camera) :
    (Camera.clamp_to_bounds c).target_y = c.target_y := by
  rcases hb : c.bounds with _ | ⟨mnx, mny, mxx, mxy⟩ <;>
    simp [Camera.clamp_to_bounds, hb]

@[simp] lemma Camera.clamp_to_bounds_smoothing (c : Camera) :
    (Camera.clamp_to_bounds c).smoothing = c.smoothing := by
  rcases hb : c.bounds with _ | ⟨mnx, mny, mxx, mxy⟩ <;>
    simp [Camera.clamp_to_bounds, hb]

lemma Camera.clamp_to_bounds_of_none (c : Camera) (hb : c.bounds = none) :
    Camera.clamp_to_bounds c = c := by
  simp [Camera.clamp_to_bounds, hb]

lemma Camera.snap_x (c : Camera) (mnx mny mxx mxy : ℝ)
    (hb : c.bounds = some (mnx, mny, mxx, mxy)) :
    c.snap_to_target.x = Camera.clamp_axis c.target_x mnx mxx c.view_width := by
  simp [Camera.snap_to_target, Camera.clamp_to_bounds, Camera.view_width, hb]

lemma Camera.snap_y (c : Camera) (mnx mny mxx mxy : ℝ)
    (hb : c.bounds = some (mnx, mny, mxx, mxy)) :
    c.snap_to_target.y = Camera.clamp_axis c.target_y mny mxy c.view_height := by
  simp [Camera.snap_to_target, Camera.clamp_to_bounds, Camera.view_height, hb]

lemma Camera.update_x_of_some (c : Camera) (mnx mny mxx mxy dt : ℝ)
    (hb : c.bounds = some (mnx, mny, mxx, mxy)) :
    (c.update dt).x = Camera.clamp_axis
      (c.x + (c.target_x - c.x) * (1 - (1 - c.smoothing) ^ (dt * 60)))
      mnx mxx c.view_width := by
  simp [Camera.update, Camera.clamp_to_bounds, Camera.view_width, hb]

lemma Camera.update_y_of_some (c : Camera) (mnx mny mxx mxy dt : ℝ)
    (hb : c.bounds = some (mnx, mny, mxx, mxy)) :
    (c.update dt).y = Camera.clamp_axis
      (c.y + (c.target_y - c.y) * (1 - (1 - c.smoothing) ^ (dt * 60)))
      mny mxy c.view_height := by
  simp [Camera.update, Camera.clamp_to_bounds, Camera.view_height, hb]

lemma Camera.clamp_axis_mem (pos minv maxv view : ℝ) (h : view ≤ maxv - minv) :
    minv ≤ Camera.clamp_axis pos minv maxv view ∧
    Camera.clamp_axis pos minv maxv view ≤ maxv - view := by
  have h' : minv ≤ maxv - view := by linarith
  unfold Camera.clamp_axis
  rw [if_neg (not_lt.mpr h')]
  exact ⟨le_max_left _ _, max_le h' (min_le_right _ _)⟩

lemma camera_ex_narrow_snap :
    camera_ex_narrow.snap_to_target.x = 800 ∧
    camera_ex_narrow.snap_to_target.y = 850 := by
  constructor <;>
    norm_num [camera_ex_narrow, Camera.init, Camera.set_bounds, Camera.follow,
      Camera.update_target, Camera.view_width, Camera.view_height,
      Camera.snap_to_target, Camera.clamp_to_bounds, Camera.clamp_axis,
      min_def, max_def]

lemma camera_ex_oversized_snap :
    camera_ex_oversized.snap_to_target.x = -350 ∧
    camera_ex_oversized.snap_to_target.y = -250 := by
  constructor <;>
    norm_num [camera_ex_oversized, Camera.init, Camera.set_bounds,
      Camera.view_width, Camera.view_height,
      Camera.snap_to_target, Camera.clamp_to_bounds, Camera.clamp_axis,
      min_def, max_def]

/-- C1: with bounds `(mnx, mny, mxx, mxy)` (max at least min), after
`snap_to_target` or `update(dt)` each axis of the position is
`(min + max - view_size) / 2` when `max - view_size < min`, and otherwise the
moved position clamped to `[min, max - view_size]`; in particular the narrow
camera snaps to (800, 850) and the oversized one centers at (-350, -250). -/
theorem camera_clamp_formula (c : Camera) (mnx mny mxx mxy dt : ℝ)
    (hb : c.bounds = some (mnx, mny, mxx, mxy)) (hx : mnx ≤ mxx) (hy : mny ≤ mxy) :
    (c.snap_to_target.x =
      if mxx - c.view_width < mnx then (mnx + mxx - c.view_width) / 2
      else max mnx (min c.target_x (mxx - c.view_width))) ∧
    (c.snap_to_target.y =
      if mxy - c.view_height < mny then (mny + mxy - c.view_height) / 2
      else max mny (min c.target_y (mxy - c.view_height))) ∧
    ((c.update dt).x =
      if mxx - c.view_width < mnx then (mnx + mxx - c.view_width) / 2
      else max mnx (min (c.x + (c.target_x - c.x) * (1 - (1 - c.smoothing) ^ (dt * 60)))
        (mxx - c.view_width))) ∧
    ((c.update dt).y =
      if mxy - c.view_height < mny then (mny + mxy - c.view_height) / 2
      else max mny (min (c.y + (c.target_y - c.y) * (1 - (1 - c.smoothing) ^ (dt * 60)))
        (mxy - c.view_height))) ∧
    (camera_ex_narrow.snap_to_target.x = 800 ∧
     camera_ex_narrow.snap_to_target.y = 850) ∧
    (camera_ex_oversized.snap_to_target.x = -350 ∧
     camera_ex_oversized.snap_to_target.y = -250) :=
  ⟨Camera.snap_x c mnx mny mxx mxy hb,
   Camera.snap_y c mnx mny mxx mxy hb,
   Camera.update_x_of_some c mnx mny mxx mxy dt hb,
   Camera.update_y_of_some c mnx mny mxx mxy dt hb,
   camera_ex_narrow_snap, camera_ex_oversized_snap⟩

/-- Witness for C1: both spec examples, via the theorem at the narrow camera. -/
theorem camera_clamp_formula_witness :
    camera_ex_narrow.bounds = some (0, 0, 1000, 1000) ∧
    ((camera_ex_narrow.snap_to_target.x = 800 ∧
      camera_ex_narrow.snap_to_target.y = 850) ∧
     (camera_ex_oversized.snap_to_target.x = -350 ∧
      camera_ex_oversized.snap_to_target.y = -250)) :=
  ⟨rfl,
   (camera_clamp_formula camera_ex_narrow 0 0 1000 1000 0 rfl (by norm_num)
      (by norm_num)).2.2.2.2.1,
   (camera_clamp_formula camera_ex_narrow 0 0 1000 1000 0 rfl (by norm_num)
      (by norm_num)).2.2.2.2.2⟩

/-- C7: `follow(x, y)` sets `target_position` to
`(x - view_width / 2, y - view_height / 2)` computed from the current zoom,
leaves `position` unchanged, and is idempotent. -/
theorem camera_follow_spec (c : Camera) (fx fy : ℝ) :
    (c.follow fx fy).target_x = fx - (c.width / c.zoom) / 2 ∧
    (c.follow fx fy).target_y = fy - (c.height / c.zoom) / 2 ∧
    (c.follow fx fy).x = c.x ∧ (c.follow fx fy).y = c.y ∧
    (c.follow fx fy).follow fx fy = c.follow fx fy :=
  ⟨rfl, rfl, rfl, rfl, rfl⟩

/-- C9: without a tilemap, `world_to_tile`, `tile_to_world`, `screen_to_tile`
and `tile_to_screen` all return the explicit absent value `none`, for every
input. -/
theorem no_map_absent (i : Internals) (wx wy sx sy : ℝ) (tx ty : ℤ)
    (hm : i.tilemap = none) :
    i.world_to_tile wx wy = none ∧ i.tile_to_world tx ty = none ∧
    i.screen_to_tile sx sy = none ∧ i.tile_to_screen tx ty = none := by
  simp [Internals.world_to_tile, Internals.tile_to_world,
    Internals.screen_to_tile, Internals.tile_to_screen, hm]

/-- Witness for C9 at a concrete no-map state and concrete inputs. -/
theorem no_map_absent_witness :
    internals_ex.tilemap = none ∧
    (internals_ex.world_to_tile 5 7 = none ∧
     internals_ex.tile_to_world 3 5 = none ∧
     internals_ex.screen_to_tile 1 2 = none ∧
     internals_ex.tile_to_screen 3 5 = none) :=
  ⟨rfl, no_map_absent internals_ex 5 7 1 2 3 5 rfl⟩

/-- C3: for any zoom within `[min_zoom, max_zoom]` (with positive `min_zoom`)
and any camera position, `world_to_screen` and `screen_to_world` are exact
inverses of each other. -/
theorem transforms_inverse (i : Internals) (sx sy wx wy : ℝ)
    (h0 : 0 < i.camera.min_zoom)
    (h1 : i.camera.min_zoom ≤ i.camera.zoom)
    (h2 : i.camera.zoom ≤ i.camera.max_zoom) :
    i.world_to_screen (i.screen_to_world sx sy).1 (i.screen_to_world sx sy).2
      = (sx, sy) ∧
    i.screen_to_world (i.world_to_screen wx wy).1 (i.world_to_screen wx wy).2
      = (wx, wy) := by
  have hz : i.camera.zoom ≠ 0 := (h0.trans_le h1).ne'
  constructor <;>
    · simp only [Internals.world_to_screen, Internals.screen_to_world,
        Prod.mk.injEq]
      constructor <;> (field_simp <;> ring)

/-- Witness for C3 at a fresh camera (zoom 1) and concrete points. -/
theorem transforms_inverse_witness :
    (0 < internals_ex.camera.min_zoom ∧
     internals_ex.camera.min_zoom ≤ internals_ex.camera.zoom ∧
     internals_ex.camera.zoom ≤ internals_ex.camera.max_zoom) ∧
    (internals_ex.world_to_screen (internals_ex.screen_to_world 3 4).1
        (internals_ex.screen_to_world 3 4).2 = (3, 4) ∧
     internals_ex.screen_to_world (internals_ex.world_to_screen 5 6).1
        (internals_ex.world_to_screen 5 6).2 = (5, 6)) :=
  ⟨⟨by norm_num [internals_ex, Camera.init],
    by norm_num [internals_ex, Camera.init],
    by norm_num [internals_ex, Camera.init]⟩,
   transforms_inverse internals_ex 3 4 5 6
     (by norm_num [internals_ex, Camera.init])
     (by norm_num [internals_ex, Camera.init])
     (by norm_num [internals_ex, Camera.init])⟩

/-- C8: with a configured tile grid of positive tile size, `tile_to_world`
returns the tile's top-left world corner `(tx * tile_width, ty * tile_height)`
and `world_to_tile` maps it back to `(tx, ty)`. -/
theorem tile_round_trip (i : Internals) (tm : TileMap) (tx ty : ℤ)
    (hm : i.tilemap = some tm) (hw : 0 < tm.tile_width) (hh : 0 < tm.tile_height) :
    i.tile_to_world tx ty
      = some (((tx * tm.tile_width : ℤ) : ℝ), ((ty * tm.tile_height : ℤ) : ℝ)) ∧
    i.world_to_tile ((tx * tm.tile_width : ℤ) : ℝ) ((ty * tm.tile_height : ℤ) : ℝ)
      = some (tx, ty) := by
  have hw' : (tm.tile_width : ℝ) ≠ 0 := by exact_mod_cast hw.ne'
  have hh' : (tm.tile_height : ℝ) ≠ 0 := by exact_mod_cast hh.ne'
  refine ⟨by simp [Internals.tile_to_world, hm], ?_⟩
  simp only [Internals.world_to_tile, hm, Option.some.injEq, Prod.mk.injEq]
  push_cast
  rw [mul_div_cancel_right₀ _ hw', mul_div_cancel_right₀ _ hh']
  exact ⟨Int.floor_intCast tx, Int.floor_intCast ty⟩

/-- Witness for C8: tile size 32x32, tile (3, 5) round-trips through world
point (96, 160). -/
theorem tile_round_trip_witness :
    internals_map_ex.tilemap
      = some { width := 10, height := 10, tile_width := 32, tile_height := 32 } ∧
    (internals_map_ex.tile_to_world 3 5 = some ((96 : ℝ), (160 : ℝ)) ∧
     internals_map_ex.world_to_tile 96 160 = some (3, 5)) := by
  refine ⟨rfl, ?_⟩
  have h := tile_round_trip internals_map_ex
    { width := 10, height := 10, tile_width := 32, tile_height := 32 }
    3 5 rfl (by norm_num) (by norm_num)
  norm_num at h
  exact h

/-- C5 counterexample: `set_bounds` itself never moves the position, so right
after installing bounds (10,10,200,200) on a fresh 100x100 camera the position
(0,0) lies outside `[min, max - view_size]` even though the view (100) is
narrower than the bounded range (190). -/
theorem camera_bounds_invariant_counterexample :
    camera_ex_unclamped.bounds = some (10, 10, 200, 200) ∧
    camera_ex_unclamped.view_width ≤ 200 - 10 ∧
    ¬ (10 ≤ camera_ex_unclamped.x ∧
       camera_ex_unclamped.x ≤ 200 - camera_ex_unclamped.view_width) := by
  refine ⟨rfl, ?_, ?_⟩ <;>
    norm_num [camera_ex_unclamped, Camera.set_bounds, Camera.init,
      Camera.view_width]

/-- C5 amended: on a narrow axis, `snap_to_target` and `update` leave the
position inside `[min, max - view_size]`, and `follow` moves neither position
nor bounds nor view size (so it preserves the invariant); `set_bounds` clamps
only lazily, at the next `update`/`snap_to_target`. -/
theorem camera_bounds_invariant (c : Camera) (mnx mny mxx mxy : ℝ)
    (hb : c.bounds = some (mnx, mny, mxx, mxy)) :
    (c.view_width ≤ mxx - mnx →
      mnx ≤ c.snap_to_target.x ∧ c.snap_to_target.x ≤ mxx - c.view_width) ∧
    (c.view_height ≤ mxy - mny →
      mny ≤ c.snap_to_target.y ∧ c.snap_to_target.y ≤ mxy - c.view_height) ∧
    (∀ dt, c.view_width ≤ mxx - mnx →
      mnx ≤ (c.update dt).x ∧ (c.update dt).x ≤ mxx - c.view_width) ∧
    (∀ dt, c.view_height ≤ mxy - mny →
      mny ≤ (c.update dt).y ∧ (c.update dt).y ≤ mxy - c.view_height) ∧
    (∀ fx fy, (c.follow fx fy).x = c.x ∧ (c.follow fx fy).y = c.y ∧
      (c.follow fx fy).bounds = c.bounds ∧
      (c.follow fx fy).view_width = c.view_width ∧
      (c.follow fx fy).view_height = c.view_height) := by
  refine ⟨?_, ?_, ?_, ?_, fun fx fy => ⟨rfl, rfl, rfl, rfl, rfl⟩⟩
  · intro h
    rw [Camera.snap_x c mnx mny mxx mxy hb]
    exact Camera.clamp_axis_mem _ _ _ _ h
  · intro h
    rw [Camera.snap_y c mnx mny mxx mxy hb]
    exact Camera.clamp_axis_mem _ _ _ _ h
  · intro dt h
    rw [Camera.update_x_of_some c mnx mny mxx mxy dt hb]
    exact Camera.clamp_axis_mem _ _ _ _ h
  · intro dt h
    rw [Camera.update_y_of_some c mnx mny mxx mxy dt hb]
    exact Camera.clamp_axis_mem _ _ _ _ h

/-- Witness for the amended C5 at the narrow spec camera. -/
theorem camera_bounds_invariant_witness :
    (camera_ex_narrow.bounds = some (0, 0, 1000, 1000) ∧
     camera_ex_narrow.view_width ≤ 1000 - 0) ∧
    (0 ≤ camera_ex_narrow.snap_to_target.x ∧
     camera_ex_narrow.snap_to_target.x ≤ 1000 - camera_ex_narrow.view_width) :=
  ⟨⟨rfl, by norm_num [camera_ex_narrow, Camera.follow, Camera.update_target,
      Camera.set_bounds, Camera.init, Camera.view_width]⟩,
   (camera_bounds_invariant camera_ex_narrow 0 0 1000 1000 rfl).1
     (by norm_num [camera_ex_narrow, Camera.follow, Camera.update_target,
       Camera.set_bounds, Camera.init, Camera.view_width])⟩

/-- C6 counterexample: `update(0)` is not a no-op on every state — the clamp
still runs, so a camera at (0,0) with bounds (10,10,200,200) is pulled to
x = 10 by `update(0)`. -/
theorem camera_update_zero_counterexample :
    (camera_ex_unclamped.update 0).x ≠ camera_ex_unclamped.x := by
  norm_num [camera_ex_unclamped, Camera.update, Camera.init, Camera.set_bounds,
    Camera.clamp_to_bounds, Camera.clamp_axis, Camera.view_width,
    Camera.view_height, Real.rpow_zero, min_def, max_def]

/-- C6 amended: `update(0)` applies no smoothing motion — it equals the bare
bounds clamp — and with no bounds installed it is a genuine no-op leaving every
field unchanged. -/
theorem camera_update_zero_amended :
    (∀ c : Camera, Camera.update c 0 = Camera.clamp_to_bounds c) ∧
    (∀ c : Camera, c.bounds = none → Camera.update c 0 = c) := by
  have h1 : ∀ c : Camera, Camera.update c 0 = Camera.clamp_to_bounds c := by
    intro c
    unfold Camera.update
    simp [Real.rpow_zero]
  exact ⟨h1, fun c hb => (h1 c).trans (Camera.clamp_to_bounds_of_none c hb)⟩

/-- Witness for the amended C6: a fresh camera has no bounds and `update(0)`
leaves it unchanged. -/
theorem camera_update_zero_witness :
    (Camera.init 800 600).bounds = none ∧
    Camera.update (Camera.init 800 600) 0 = Camera.init 800 600 :=
  ⟨rfl, camera_update_zero_amended.2 (Camera.init 800 600) rfl⟩

/-- C4 (spec-modelled `set_zoom`): setting the zoom clamps to
`[min_zoom, max_zoom]` and recomputes the target from the existing follow
target, so that with the target in sync with the follow point the world point
at the viewport center is the follow point both before and after the change. -/
theorem set_zoom_preserves_center (c : Camera) (z : ℝ)
    (htx : c.target_x = c.follow_x - c.view_width / 2)
    (hty : c.target_y = c.follow_y - c.view_height / 2) :
    (c.set_zoom z).zoom = max c.min_zoom (min z c.max_zoom) ∧
    (c.set_zoom z).target_x = c.follow_x - (c.set_zoom z).view_width / 2 ∧
    (c.set_zoom z).target_y = c.follow_y - (c.set_zoom z).view_height / 2 ∧
    (c.set_zoom z).center_world_x = c.center_world_x ∧
    (c.set_zoom z).center_world_y = c.center_world_y ∧
    c.center_world_x = c.follow_x ∧ c.center_world_y = c.follow_y := by
  have hbx : c.center_world_x = c.follow_x := by
    rw [Camera.center_world_x, htx, Camera.view_width]
    ring
  have hby : c.center_world_y = c.follow_y := by
    rw [Camera.center_world_y, hty, Camera.view_height]
    ring
  have hax : (c.set_zoom z).center_world_x = c.follow_x := by
    simp only [Camera.set_zoom, Camera.update_target, Camera.center_world_x,
      Camera.view_width]
    ring
  have hay : (c.set_zoom z).center_world_y = c.follow_y := by
    simp only [Camera.set_zoom, Camera.update_target, Camera.center_world_y,
      Camera.view_height]
    ring
  exact ⟨rfl, rfl, rfl, hax.trans hbx.symm, hay.trans hby.symm, hbx, hby⟩

/-- Witness for C4: zoom change from 1.0 to 2.0 on a camera following
(100, 100) keeps the centered world point. -/
theorem set_zoom_preserves_center_witness :
    (camera_ex_follow.target_x
       = camera_ex_follow.follow_x - camera_ex_follow.view_width / 2 ∧
     camera_ex_follow.zoom = 1 ∧ (camera_ex_follow.set_zoom 2).zoom = 2) ∧
    ((camera_ex_follow.set_zoom 2).center_world_x
       = camera_ex_follow.center_world_x ∧
     camera_ex_follow.center_world_x = 100) := by
  have htx : camera_ex_follow.target_x
      = camera_ex_follow.follow_x - camera_ex_follow.view_width / 2 := rfl
  have hty : camera_ex_follow.target_y
      = camera_ex_follow.follow_y - camera_ex_follow.view_height / 2 := rfl
  have h := set_zoom_preserves_center camera_ex_follow 2 htx hty
  refine ⟨⟨htx, rfl, ?_⟩, h.2.2.2.1, ?_⟩
  · rw [h.1]
    norm_num [camera_ex_follow, Camera.follow, Camera.update_target, Camera.init]
  · rw [h.2.2.2.2.2.1]
    rfl

lemma Camera.update_x_of_none (c : Camera) (dt : ℝ) (hb : c.bounds = none) :
    (c.update dt).x
      = c.target_x - (c.target_x - c.x) * (1 - c.smoothing) ^ (dt * 60) := by
  unfold Camera.update
  rw [Camera.clamp_to_bounds_of_none _ (by simpa using hb)]
  ring

lemma Camera.update_y_of_none (c : Camera) (dt : ℝ) (hb : c.bounds = none) :
    (c.update dt).y
      = c.target_y - (c.target_y - c.y) * (1 - c.smoothing) ^ (dt * 60) := by
  unfold Camera.update
  rw [Camera.clamp_to_bounds_of_none _ (by simpa using hb)]
  ring

@[simp] lemma Camera.update_bounds (c : Camera) (dt : ℝ) :
    (c.update dt).bounds = c.bounds := by
  unfold Camera.update
  simp

@[simp] lemma Camera.update_keeps_target_x (c : Camera) (dt : ℝ) :
    (c.update dt).target_x = c.target_x := by
  unfold Camera.update
  simp

@[simp] lemma Camera.update_keeps_target_y (c : Camera) (dt : ℝ) :
    (c.update dt).target_y = c.target_y := by
  unfold Camera.update
  simp

@[simp] lemma Camera.update_keeps_smoothing (c : Camera) (dt : ℝ) :
    (c.update dt).smoothing = c.smoothing := by
  unfold Camera.update
  simp

lemma camera_update_iter_x (d : ℝ) (n : ℕ) :
    ∀ c : Camera, c.bounds = none →
      ((fun cc => Camera.update cc d)^[n] c).x
        = c.target_x - (c.target_x - c.x) * ((1 - c.smoothing) ^ (d * 60)) ^ n := by
  induction n with
  | zero => intro c _; simp
  | succ n ih =>
      intro c hb
      rw [Function.iterate_succ_apply]
      rw [ih (c.update d) (by simp [hb])]
      simp only [Camera.update_keeps_target_x, Camera.update_keeps_smoothing]
      rw [Camera.update_x_of_none c d hb]
      ring

lemma camera_update_iter_y (d : ℝ) (n : ℕ) :
    ∀ c : Camera, c.bounds = none →
      ((fun cc => Camera.update cc d)^[n] c).y
        = c.target_y - (c.target_y - c.y) * ((1 - c.smoothing) ^ (d * 60)) ^ n := by
  induction n with
  | zero => intro c _; simp
  | succ n ih =>
      intro c hb
      rw [Function.iterate_succ_apply]
      rw [ih (c.update d) (by simp [hb])]
      simp only [Camera.update_keeps_target_y, Camera.update_keeps_smoothing]
      rw [Camera.update_y_of_none c d hb]
      ring

/-- C2: `update(dt)` moves each axis by the fraction
`1 - (1 - smoothing) ^ (dt * 60)` of the remaining distance (then clamps; here
bounds are absent), and `n` updates of `T / n` land exactly where one update
of `T` does — the smoothing is frame-rate independent. -/
theorem camera_update_frame_rate_independence (c : Camera) (dt T : ℝ) (n : ℕ)
    (hb : c.bounds = none) (hs : c.smoothing ≤ 1) (hdt : 0 ≤ dt) (hT : 0 ≤ T)
    (hn : 0 < n) :
    ((c.update dt).x
       = c.x + (c.target_x - c.x) * (1 - (1 - c.smoothing) ^ (dt * 60)) ∧
     (c.update dt).y
       = c.y + (c.target_y - c.y) * (1 - (1 - c.smoothing) ^ (dt * 60))) ∧
    ((fun cc => Camera.update cc (T / n))^[n] c).x = (c.update T).x ∧
    ((fun cc => Camera.update cc (T / n))^[n] c).y = (c.update T).y := by
  have hβ : (0 : ℝ) ≤ 1 - c.smoothing := by linarith
  have hne : (n : ℝ) ≠ 0 := Nat.cast_ne_zero.mpr hn.ne'
  have hTn : T / n * 60 * n = T * 60 := by
    rw [div_mul_eq_mul_div, div_mul_cancel₀ _ hne]
  have key : ((1 - c.smoothing) ^ (T / (n : ℝ) * 60)) ^ n
      = (1 - c.smoothing) ^ (T * 60) := by
    rw [← Real.rpow_natCast ((1 - c.smoothing) ^ (T / (n : ℝ) * 60)) n,
      ← Real.rpow_mul hβ, hTn]
  refine ⟨⟨?_, ?_⟩, ?_, ?_⟩
  · rw [Camera.update_x_of_none c dt hb]; ring
  · rw [Camera.update_y_of_none c dt hb]; ring
  · rw [camera_update_iter_x (T / n) n c hb, key, Camera.update_x_of_none c T hb]
  · rw [camera_update_iter_y (T / n) n c hb, key, Camera.update_y_of_none c T hb]

/-- Witness for C2: two updates of half a second match one full-second update
on a fresh camera following (100, 100). -/
theorem camera_update_frame_rate_independence_witness :
    (camera_ex_follow.bounds = none ∧ camera_ex_follow.smoothing ≤ 1 ∧
     (0 : ℝ) ≤ 1 ∧ 0 < 2) ∧
    ((fun cc => Camera.update cc (1 / ((2 : ℕ) : ℝ)))^[2] camera_ex_follow).x
      = (camera_ex_follow.update 1).x :=
  ⟨⟨rfl,
    by norm_num [camera_ex_follow, Camera.follow, Camera.update_target,
      Camera.init],
    by norm_num, by norm_num⟩,
   (camera_update_frame_rate_independence camera_ex_follow 1 1 2 rfl
     (by norm_num [camera_ex_follow, Camera.follow, Camera.update_target,
       Camera.init])
     (by norm_num) (by norm_num) (by norm_num)).2.1⟩

lemma animCeil_lt (fd e : ℝ) (hfd : 0 < fd) (hle : fd ≤ e) :
    (⌈(e - fd) / fd⌉).toNat < (⌈e / fd⌉).toNat := by
  have hq : (e - fd) / fd = e / fd - 1 := by rw [sub_div, div_self hfd.ne']
  have h1 : (1 : ℝ) ≤ e / fd := (one_le_div hfd).mpr hle
  have h2 : (1 : ℤ) ≤ ⌈e / fd⌉ := by simpa using Int.ceil_le_ceil h1
  rw [hq, Int.ceil_sub_one]
  omega

lemma animCeil_pos (fd e : ℝ) (hfd : 0 < fd) (hle : fd ≤ e) :
    1 ≤ (⌈e / fd⌉).toNat := by
  have h1 : (1 : ℝ) ≤ e / fd := (one_le_div hfd).mpr hle
  have h2 : (1 : ℤ) ≤ ⌈e / fd⌉ := by simpa using Int.ceil_le_ceil h1
  omega

lemma animFrameLoop_frame_lt (fd : ℝ) (n : ℕ) (lp : Bool) :
    ∀ (e : ℝ) (f : ℕ), f < n → (animFrameLoop fd n lp e f).2.1 < n := by
  suffices H : ∀ (m : ℕ) (e : ℝ) (f : ℕ), (⌈e / fd⌉).toNat ≤ m → f < n →
      (animFrameLoop fd n lp e f).2.1 < n by
    intro e f hf
    exact H (⌈e / fd⌉).toNat e f le_rfl hf
  intro m
  induction m with
  | zero =>
      intro e f hm hf
      rw [animFrameLoop, dif_neg]
      · exact hf
      · rintro ⟨hfd, hle⟩
        have := animCeil_pos fd e hfd hle
        omega
  | succ m ih =>
      intro e f hm hf
      rw [animFrameLoop]
      split
      case isTrue h =>
        have hd := animCeil_lt fd e h.1 h.2
        have hm' : (⌈(e - fd) / fd⌉).toNat ≤ m := by omega
        split
        case isTrue hfr =>
          split
          case isTrue hlp => exact ih (e - fd) 0 hm' (by omega)
          case isFalse hlp => show n - 1 < n; omega
        case isFalse hfr => exact ih (e - fd) (f + 1) hm' (by omega)
      case isFalse h => exact hf

lemma animFrameLoopFuel_spec (fd : ℝ) (n : ℕ) (lp : Bool) :
    ∀ (k : ℕ) (e : ℝ) (f : ℕ), (⌈e / fd⌉).toNat ≤ k →
      animFrameLoopFuel fd n lp k e f
        = some (animFrameLoop fd n lp e f) := by
  intro k
  induction k with
  | zero =>
      intro e f hk
      have hng : ¬ (0 < fd ∧ fd ≤ e) := by
        rintro ⟨hfd, hle⟩
        have := animCeil_pos fd e hfd hle
        omega
      rw [animFrameLoop, dif_neg hng]
      simp [animFrameLoopFuel, hng]
  | succ k ih =>
      intro e f hk
      by_cases h : 0 < fd ∧ fd ≤ e
      · have hd := animCeil_lt fd e h.1 h.2
        have hk' : (⌈(e - fd) / fd⌉).toNat ≤ k := by omega
        rw [animFrameLoop, dif_pos h]
        simp only [animFrameLoopFuel]
        rw [if_pos h]
        by_cases hfr : f + 1 ≥ n
        · rw [if_pos hfr, if_pos hfr]
          cases lp with
          | true => simpa using ih (e - fd) 0 hk'
          | false => simp
        · rw [if_neg hfr, if_neg hfr]
          exact ih (e - fd) (f + 1) hk'
      · rw [animFrameLoop, dif_neg h]
        simp [animFrameLoopFuel, h]

lemma AnimatedSprite.update_image_frame (s : AnimatedSprite) :
    (AnimatedSprite.update_image s).current_frame = s.current_frame := by
  unfold AnimatedSprite.update_image
  split
  · rfl
  · split
    · rfl
    · split <;> rfl

/-- C10: for a playing sprite whose current animation has positive
`frame_duration` and a non-empty frame list (and a valid current frame),
`update(dt)` terminates — the catch-up loop finishes within some finite fuel —
and afterwards `_current_frame` is a valid index into the frame list. -/
theorem sprite_update_terminates (s : AnimatedSprite) (dt : ℝ) (name : String)
    (anim : Animation)
    (hp : s.playing = true) (hc : s.current_animation = some name)
    (ha : s.animations.lookup name = some anim)
    (hfd : 0 < anim.frame_duration) (hne : anim.frames ≠ [])
    (hf : s.current_frame < anim.frames.length) (hdt : 0 ≤ dt) :
    (∃ k, animFrameLoopFuel anim.frame_duration anim.frames.length anim.loop k
        (s.elapsed + dt) s.current_frame
      = some (animFrameLoop anim.frame_duration anim.frames.length anim.loop
          (s.elapsed + dt) s.current_frame)) ∧
    (s.update dt).current_frame < anim.frames.length := by
  constructor
  · exact ⟨_, animFrameLoopFuel_spec _ _ _ _ _ _ le_rfl⟩
  · have hloop := animFrameLoop_frame_lt anim.frame_duration anim.frames.length
      anim.loop (s.elapsed + dt) s.current_frame hf
    have hrw : s.update dt = AnimatedSprite.update_image
        { s with
          elapsed := (animFrameLoop anim.frame_duration anim.frames.length
            anim.loop (s.elapsed + dt) s.current_frame).1,
          current_frame := (animFrameLoop anim.frame_duration anim.frames.length
            anim.loop (s.elapsed + dt) s.current_frame).2.1,
          playing := (animFrameLoop anim.frame_duration anim.frames.length
            anim.loop (s.elapsed + dt) s.current_frame).2.2 } := by
      simp [AnimatedSprite.update, hp, hc, ha, hne]
    rw [hrw, AnimatedSprite.update_image_frame]
    exact hloop

/-- Witness for C10 at a concrete two-frame looping sprite and `dt = 1`. -/
theorem sprite_update_terminates_witness :
    (sprite_ex.playing = true ∧ sprite_ex.current_animation = some "run" ∧
     sprite_ex.animations.lookup "run" = some anim_run ∧
     0 < anim_run.frame_duration ∧ anim_run.frames ≠ [] ∧
     sprite_ex.current_frame < anim_run.frames.length ∧ (0 : ℝ) ≤ 1) ∧
    ((∃ k, animFrameLoopFuel anim_run.frame_duration anim_run.frames.length
        anim_run.loop k (sprite_ex.elapsed + 1) sprite_ex.current_frame
      = some (animFrameLoop anim_run.frame_duration anim_run.frames.length
          anim_run.loop (sprite_ex.elapsed + 1) sprite_ex.current_frame)) ∧
     (sprite_ex.update 1).current_frame < anim_run.frames.length) :=
  ⟨⟨rfl, rfl, rfl, by norm_num [anim_run],
    by simp [anim_run],
    by norm_num [sprite_ex, anim_run], by norm_num⟩,
   sprite_update_terminates sprite_ex 1 "run" anim_run rfl rfl rfl
     (by norm_num [anim_run]) (by simp [anim_run])
     (by norm_num [sprite_ex, anim_run]) (by norm_num)⟩

end Tilepygame
